import Mathlib

/-!
Verification development for the Accessible Technology Test Adapter
(ATTA) harness: a shallow embedding of the platform-independent
test-session engine of atta_base.py and of the ATK method resolver and
retrying reads of atk_atta.py, with theorems settling the stated
properties.  Platform calls (URI and title reads, window discovery,
parent lookups, network fetches) are modelled as explicit environment
parameters; everything else is translated from the Python source.
-/

namespace AttaSpec

/-! ### String helpers mirroring the Python string operations used -/

/-- Tests whether the first character list is an initial run of the second. -/
def listStarts : List Char → List Char → Bool
  | [], _ => true
  | _ :: _, [] => false
  | a :: as, b :: bs => a == b && listStarts as bs

/-- Python substring containment (the `in` operator) on character lists. -/
def listHasSub (needle : List Char) : List Char → Bool
  | [] => listStarts needle []
  | h :: t => listStarts needle (h :: t) || listHasSub needle t

/-- Python `needle in haystack` for strings. -/
def pyIn (needle haystack : String) : Bool :=
  listHasSub needle.data haystack.data

/-- One pass of Python `str.replace`: replaces every non-overlapping
occurrence of `needle`, scanning left to right.  The fuel is the length
of the scanned list; every step consumes at least one character, so
fuel equal to the initial length is never exhausted.  All needles used
by the adapter are nonempty. -/
def listReplaceF (needle repl : List Char) : Nat → List Char → List Char
  | _, [] => []
  | 0, l => l
  | fuel + 1, h :: t =>
    if listStarts needle (h :: t) then
      repl ++ listReplaceF needle repl fuel (List.drop (needle.length - 1) t)
    else
      h :: listReplaceF needle repl fuel t

/-- Python `s.replace(needle, repl)` for strings (nonempty needle). -/
def pyReplace (s needle repl : String) : String :=
  ⟨listReplaceF needle.data repl.data s.data.length s.data⟩

/-- Python `key in list` for string lists. -/
def containsStr : List String → String → Bool
  | [], _ => false
  | h :: t, s => h == s || containsStr t s

/-- Python `list.index`: position of the first occurrence. -/
def listIdx : List String → String → Nat
  | [], _ => 0
  | h :: t, s => if h == s then 0 else listIdx t s + 1

/-- List indexing with a default, standing in for Python indexing at a
position that is known to be in range. -/
def listGetD : List String → Nat → String
  | [], _ => ""
  | h :: _, 0 => h
  | _ :: t, n + 1 => listGetD t n

/-- Python `dict.get` on an association list (first match). -/
def lookupAssoc {α : Type} : List (String × α) → String → Option α
  | [], _ => none
  | (k, v) :: rest, key => if k == key then some v else lookupAssoc rest key

/-- Python `d[k] = v` on an association list: update in place when the
key is present (keeping its position, as an insertion-ordered Python
dict does), append otherwise. -/
def dset {α : Type} : List (String × α) → String → α → List (String × α)
  | [], k, v => [(k, v)]
  | (k', v') :: rest, k, v =>
    if k' == k then (k, v) :: rest else (k', v') :: dset rest k v

/-- Python `d.get(k, default)` on an association list. -/
def dget {α : Type} (m : List (String × α)) (k : String) (d : α) : α :=
  match lookupAssoc m k with
  | some v => v
  | none => d

/-! ### Atta._create_platform_assertions (atta_base.py lines 556-581)

The harness hands the adapter a list of 4-tuples
`(test_type, name, verb, value)`.  Event subtests are folded into one
combined assertion per logical event. -/

/-- An assertion after platform-specific preparation: either the
original 4-tuple, or a combined event assertion carrying the folded
property map (the Python list `["event", "event", "contains", dict]`). -/
inductive PlatAssertion
  | plain (kind name verb value : String)
  | eventContains (props : List (String × String))
deriving DecidableEq, Repr

/-- Tests whether a combined event assertion. -/
def isEventContains : PlatAssertion → Bool
  | .eventContains _ => true
  | .plain _ _ _ _ => false

/-- The lambda `is_new_event`: a tuple of kind `event` whose property
name is the discriminator `type`.  (The Python truthiness test on the
tuple is always true here: every element is a 4-tuple.) -/
def is_new_event (a : String × String × String × String) : Bool :=
  a.1 == "event" && a.2.1 == "type"

/-- The list `indices`: the positions of new-event tuples, with the
input length appended. -/
def eventIndices (assertions : List (String × String × String × String)) : List Nat :=
  ((assertions.enum.filter fun p => is_new_event p.2).map Prod.fst) ++ [assertions.length]

/-- The main loop of `_create_platform_assertions`: `i` is the current
index, `props` the accumulated event-property dictionary. -/
def cpaAux (indices : List Nat) :
    Nat → List (String × String × String × String) → List (String × String) →
    List PlatAssertion
  | _, [], _ => []
  | i, (t, n, v, val) :: rest, props =>
    if t != "event" then
      .plain t n v val :: cpaAux indices (i + 1) rest props
    else
      let props' := dset props n val
      if indices.contains (i + 1) then
        .eventContains props' :: cpaAux indices (i + 1) rest []
      else
        cpaAux indices (i + 1) rest props'

/-- `Atta._create_platform_assertions`. -/
def create_platform_assertions
    (assertions : List (String × String × String × String)) : List PlatAssertion :=
  cpaAux (eventIndices assertions) 0 assertions []

/-! ### The session state machine (atta_base.py lines 99-114, 204-250, 347-355, 391-410)

Accessible elements are abstract platform handles, modelled as `Nat`.
The platform reads performed by `is_ready` are supplied by an
environment of pure functions: `getUri` stands for `_get_uri`,
`getTitle` for `_get_title`, `findTestWindow` for `_find_test_window`
(a function of the pending test name and the cached window), and
`findDoc` for `_find_descendant(window, _is_document)`. -/

structure PlatformEnv where
  getUri : Nat → String
  getTitle : Nat → String
  findTestWindow : Option String → Option Nat → Option Nat
  findDoc : Option Nat → Option Nat

/-- The session fields of `Atta.__init__`: `_ready`, `_next_test`
(name may be Python `None`), and the three cached element handles.
Python stores `self._ready = uri and uri == test_uri`, whose value may
be the falsy string `""`; every use of `_ready` is a truthiness test,
so a `Bool` carries the same information. -/
structure SessionState where
  ready : Bool
  nextTestName : Option String
  nextTestUrl : String
  currentDocument : Option Nat
  currentWindow : Option Nat
  currentApplication : Option Nat
deriving DecidableEq, Repr

/-- The state set up by `Atta.__init__`. -/
def initState : SessionState :=
  { ready := false, nextTestName := none, nextTestUrl := "",
    currentDocument := none, currentWindow := none, currentApplication := none }

/-- Python truthiness of the pending test name (`None` and `""` are falsy). -/
def pyTruthy : Option String → Bool
  | none => false
  | some s => s != ""

/-- Python `document or self._current_document`. -/
def orElseDoc (hint cur : Option Nat) : Option Nat :=
  match hint with
  | some d => some d
  | none => cur

/-- The tail of `Atta.is_ready`, from the `if document is None` check
on (lines 215-239): evaluates the resolved document against the
pending test and latches the session state. -/
def is_ready_eval (env : PlatformEnv) (st1 : SessionState) :
    Option Nat → Bool × SessionState
  | none => (false, st1)
  | some d =>
    let uri := env.getUri d
    if uri != "" && uri == st1.nextTestUrl then
      (true, { st1 with ready := true, currentDocument := some d })
    else if uri == "" && pyTruthy st1.nextTestName
            && some (env.getTitle d) == st1.nextTestName then
      (true, { st1 with ready := true, currentDocument := some d })
    else
      (false, { st1 with ready := false })

/-- `Atta.is_ready` (lines 204-239): returns the readiness verdict and
the mutated session state. -/
def is_ready (env : PlatformEnv) (loadNotifications : Bool)
    (st : SessionState) (docHint : Option Nat) : Bool × SessionState :=
  if st.ready then (true, st)
  else
    let doc0 := orElseDoc docHint st.currentDocument
    let discover := doc0.isNone && !loadNotifications
    let st1 :=
      if discover then
        { st with currentWindow := env.findTestWindow st.nextTestName st.currentWindow }
      else st
    let doc1 := if discover then env.findDoc st1.currentWindow else doc0
    is_ready_eval env st1 doc1

/-- `Atta.start_test_run` (lines 241-250). -/
def start_test_run (st : SessionState) (name : Option String) (url : String) :
    SessionState :=
  if st.nextTestName == name && st.nextTestUrl == url then st
  else { st with ready := false, nextTestName := name, nextTestUrl := url }

/-- `Atta.end_test_run` (lines 347-355): clears the cached document,
the pending test and the ready flag.  The cached window and
application handles are not touched by this method. -/
def end_test_run (st : SessionState) : SessionState :=
  { st with currentDocument := none, nextTestName := none, nextTestUrl := "",
            ready := false }

/-- The session-field effect of `Atta.shutdown` (lines 391-410): when
the ATTA is not enabled it returns at once; otherwise it clears the
ready flag. -/
def shutdown (enabled : Bool) (st : SessionState) : SessionState :=
  if enabled then { st with ready := false } else st

/-- One operation that touches the session. -/
inductive SessionOp
  | isReady (hint : Option Nat)
  | startRun (name : Option String) (url : String)
  | endRun
  | shutdownOp
deriving Repr

/-- One step of the session state machine. -/
def stepSession (env : PlatformEnv) (loadNotifications enabled : Bool)
    (st : SessionState) : SessionOp → SessionState
  | .isReady hint => (is_ready env loadNotifications st hint).2
  | .startRun n u => start_test_run st n u
  | .endRun => end_test_run st
  | .shutdownOp => shutdown enabled st

/-- Runs a sequence of session operations. -/
def runSession (env : PlatformEnv) (loadNotifications enabled : Bool) :
    SessionState → List SessionOp → SessionState
  | st, [] => st
  | st, op :: rest =>
    runSession env loadNotifications enabled
      (stepSession env loadNotifications enabled st op) rest

/-- The readiness invariant: a ready session caches a document whose
URI is nonempty and equals the pending test URL, or which exposes no
URI and whose title equals the pending test name. -/
def readyInvB (env : PlatformEnv) (st : SessionState) : Bool :=
  !st.ready ||
    (match st.currentDocument with
     | none => false
     | some d =>
       (env.getUri d != "" && env.getUri d == st.nextTestUrl) ||
       (env.getUri d == "" && some (env.getTitle d) == st.nextTestName))

/-! ### Theorems: the session state machine -/

/-- Preservation of the readiness invariant by the document-evaluation
tail of `is_ready`. -/
lemma readyInv_eval (env : PlatformEnv) (st1 : SessionState) (doc1 : Option Nat)
    (h : st1.ready = false) :
    readyInvB env (is_ready_eval env st1 doc1).2 = true := by
  unfold is_ready_eval
  split
  · simp [readyInvB, h]
  · dsimp only
    split_ifs with h1 h2
    · simp only [Bool.and_eq_true, bne_iff_ne, beq_iff_eq, ne_eq] at h1
      obtain ⟨ha, hb⟩ := h1
      simp [readyInvB, ← hb, ha]
    · simp only [Bool.and_eq_true, beq_iff_eq] at h2
      obtain ⟨⟨ha, hb⟩, hc⟩ := h2
      simp [readyInvB, ha, hc]
    · simp [readyInvB]

/-- Preservation of the readiness invariant by every session operation. -/
lemma readyInv_step (env : PlatformEnv) (loadN enabled : Bool) (st : SessionState)
    (op : SessionOp) (h : readyInvB env st = true) :
    readyInvB env (stepSession env loadN enabled st op) = true := by
  cases op with
  | startRun n u =>
    simp only [stepSession]
    unfold start_test_run
    split
    · exact h
    · simp [readyInvB]
  | endRun =>
    simp [stepSession, end_test_run, readyInvB]
  | shutdownOp =>
    simp only [stepSession]
    unfold shutdown
    split
    · simp [readyInvB]
    · exact h
  | isReady hint =>
    simp only [stepSession]
    unfold is_ready
    by_cases hr : st.ready = true
    · simpa [hr] using h
    · have hr' : st.ready = false := by simpa using hr
      rw [if_neg hr]
      apply readyInv_eval
      split <;> simp [hr']

/-- C1: whenever the ready flag of the session is true, the cached
current document is non-null and either its resolved URI is nonempty
and equals the pending test URL, or it exposes no URI and its title
equals the pending test name; the invariant holds in every state
reachable from the initial state by `is_ready`, `start_test_run`,
`end_test_run` and `shutdown`. -/
theorem atta_readiness_invariant (env : PlatformEnv) (loadN enabled : Bool)
    (ops : List SessionOp) :
    readyInvB env (runSession env loadN enabled initState ops) = true := by
  suffices h : ∀ st, readyInvB env st = true →
      readyInvB env (runSession env loadN enabled st ops) = true by
    exact h initState rfl
  induction ops with
  | nil => intro st hst; simpa [runSession] using hst
  | cons op rest ih =>
    intro st hst
    exact ih _ (readyInv_step env loadN enabled st op hst)

/-- C2: the three event subtests for Foo (type, detail1) and Bar fold
into exactly two combined `contains` assertions, in order. -/
theorem atta_event_correlation_folding :
    create_platform_assertions
      [("event", "type", "equals", "Foo"), ("event", "detail1", "equals", "1"),
       ("event", "type", "equals", "Bar")] =
      [PlatAssertion.eventContains [("type", "Foo"), ("detail1", "1")],
       PlatAssertion.eventContains [("type", "Bar")]] := by
  decide

/-- C10: an event group immediately followed by a non-event assertion
is discarded: the accumulated event properties for Foo never reach the
output, which consists of the lone property assertion and contains no
combined event assertion. -/
theorem atta_trailing_event_group_discarded :
    create_platform_assertions
      [("event", "type", "equals", "Foo"), ("property", "role", "is", "button")] =
      [PlatAssertion.plain "property" "role" "is" "button"] ∧
    (create_platform_assertions
      [("event", "type", "equals", "Foo"),
       ("property", "role", "is", "button")]).all
        (fun a => !isEventContains a) = true := by
  constructor
  · decide
  · decide

/-- C4 counterexample: `end_test_run` does not clear the cached window
and application handles; from a state where both are set they keep
their values, while the claim says every field returns to its initial
(null) value. -/
theorem atta_end_test_run_counterexample :
    (end_test_run
      { ready := true, nextTestName := some "test", nextTestUrl := "u",
        currentDocument := some 1, currentWindow := some 5,
        currentApplication := some 7 }).currentWindow = some 5 ∧
    (end_test_run
      { ready := true, nextTestName := some "test", nextTestUrl := "u",
        currentDocument := some 1, currentWindow := some 5,
        currentApplication := some 7 }).currentApplication = some 7 := by
  exact ⟨rfl, rfl⟩

/-- C4 as amended: after `end_test_run` the pending test is (None, ""),
the ready flag is false and the cached document is null, while the
cached window and application handles are left unchanged. -/
theorem atta_end_test_run_resets (st : SessionState) :
    (end_test_run st).nextTestName = none ∧ (end_test_run st).nextTestUrl = "" ∧
    (end_test_run st).ready = false ∧ (end_test_run st).currentDocument = none ∧
    (end_test_run st).currentWindow = st.currentWindow ∧
    (end_test_run st).currentApplication = st.currentApplication := by
  exact ⟨rfl, rfl, rfl, rfl, rfl, rfl⟩

/-- C6: a second `start_test_run` with the identical (name, url) pair
changes no session state (so the ready flag is unchanged), while a
call with a pair different from the pending one clears the ready flag
and records the new pair. -/
theorem atta_start_test_run_idempotent :
    (∀ (st : SessionState) (n : Option String) (u : String),
      start_test_run (start_test_run st n u) n u = start_test_run st n u) ∧
    (∀ (st : SessionState) (n : Option String) (u : String),
      (st.nextTestName == n && st.nextTestUrl == u) = false →
      (start_test_run st n u).ready = false ∧
      (start_test_run st n u).nextTestName = n ∧
      (start_test_run st n u).nextTestUrl = u) := by
  constructor
  · intro st n u
    by_cases hc : (st.nextTestName == n && st.nextTestUrl == u) = true
    · simp [start_test_run, hc]
    · simp [start_test_run, hc]
  · intro st n u hc
    simp [start_test_run, hc]

/-! ### AtkAtta.get_client_side_method (atk_atta.py lines 349-405)

The resolver maps a server-side (ATK) method to the equivalent
client-side (AT-SPI2) method.  The introspection repository is the
environment: `atspiMethods` maps an interface name to the list of
client-side method symbols (None when the interface is unknown).
Methods are identified by their symbols, so the resolver returns the
chosen client-side symbol. -/

structure GirEnv where
  atspiMethods : String → Option (List String)

/-- The manual override table for pairs that are unique or hard to map
via heuristic. -/
def atkMappings : List (String × String) :=
  [("atk_selection_add_selection", "atspi_selection_select_child"),
   ("atk_selection_ref_selection", "atspi_selection_get_selected_child"),
   ("atk_selection_remove_selection", "atspi_selection_deselect_selected_child"),
   ("atk_selection_select_all_selection", "atspi_selection_select_all"),
   ("atk_value_set_value", "atspi_value_set_current_value"),
   ("atk_value_get_increment", "atspi_value_get_minimum_increment")]

/-- `AtkAtta.get_client_side_method`: the layered resolution chain,
first match wins.  `interface` is the name of the container of the
server-side method, `serverSymbol` its symbol. -/
def get_client_side_method (env : GirEnv) (interface serverSymbol : String) :
    Option String :=
  match env.atspiMethods interface with
  | none => none
  | some clientSymbols =>
    match
      (match lookupAssoc atkMappings serverSymbol with
       | some m => if containsStr clientSymbols m then some m else none
       | none => none) with
    | some m => some m
    | none =>
      let candidate := pyReplace serverSymbol "atk" "atspi"
      if containsStr clientSymbols candidate then some candidate
      else
        let refGet := pyReplace candidate "_ref_" "_get_"
        if containsStr clientSymbols refGet then some refGet
        else
          let refAt := pyReplace candidate "_ref_at" "_get_accessible_at"
          if containsStr clientSymbols refAt then some refAt
          else
            let collapsed := pyReplace candidate "_" ""
            let collapsedClient := clientSymbols.map fun x => pyReplace x "_" ""
            if containsStr collapsedClient collapsed then
              some (listGetD clientSymbols (listIdx collapsedClient collapsed))
            else if pyIn "_get_" serverSymbol && pyIn "_count" serverSymbol then
              match clientSymbols.filter (fun x => pyIn "get_n_" x) with
              | [m] => some m
              | _ => none
            else none

/-- A concrete introspection environment for the Value interface. -/
def girEnvValue : GirEnv :=
  ⟨fun i => if i == "Value" then
      some ["atspi_value_get_minimum_value", "atspi_value_get_current_value",
            "atspi_value_set_current_value", "atspi_value_get_minimum_increment"]
    else none⟩

/-- A concrete introspection environment for the Selection interface. -/
def girEnvSelection : GirEnv :=
  ⟨fun i => if i == "Selection" then
      some ["atspi_selection_get_selected_child", "atspi_selection_select_all",
            "atspi_selection_get_n_selected_children"]
    else none⟩

/-- A concrete introspection environment in which the Foo interface
has the unique count-style client method. -/
def girEnvFoo : GirEnv :=
  ⟨fun i => if i == "Foo" then some ["atspi_foo_get_n_bar"] else none⟩

/-! ### Theorems: client-side method resolution -/


lemma containsStr_iff (l : List String) (s : String) :
    containsStr l s = true ↔ s ∈ l := by
  induction l with
  | nil => simp [containsStr]
  | cons a t ih =>
    simp only [containsStr, Bool.or_eq_true, beq_iff_eq, ih, List.mem_cons]
    constructor
    · rintro (h | h)
      · exact Or.inl h.symm
      · exact Or.inr h
    · rintro (h | h)
      · exact Or.inl h.symm
      · exact Or.inr h

lemma listIdx_lt (l : List String) (s : String) (h : containsStr l s = true) :
    listIdx l s < l.length := by
  induction l with
  | nil => simp [containsStr] at h
  | cons a t ih =>
    by_cases ha : (a == s) = true
    · simp [listIdx, ha]
    · have ht : containsStr t s = true := by
        simpa [containsStr, ha] using h
      simp only [listIdx, ha, if_false, List.length_cons]
      exact Nat.succ_lt_succ (ih ht)

lemma containsStr_listGetD (l : List String) (n : Nat) (h : n < l.length) :
    containsStr l (listGetD l n) = true := by
  induction l generalizing n with
  | nil => simp at h
  | cons a t ih =>
    cases n with
    | zero => simp [listGetD, containsStr]
    | succ m =>
      have hm : m < t.length := by simpa using Nat.lt_of_succ_lt_succ h
      simp [listGetD, containsStr, ih m hm]

lemma containsStr_of_filter_singleton (l : List String) (p : String → Bool)
    (m : String) (h : l.filter p = [m]) : containsStr l m = true := by
  have hm : m ∈ l.filter p := by simp [h]
  exact (containsStr_iff l m).2 (List.mem_of_mem_filter hm)

lemma gcsm_override (env : GirEnv) (iface s : String) (syms : List String)
    (m : String) (he : env.atspiMethods iface = some syms)
    (hov : lookupAssoc atkMappings s = some m)
    (hc : containsStr syms m = true) :
    get_client_side_method env iface s = some m := by
  unfold get_client_side_method
  rw [he, hov]
  simp [hc]

lemma gcsm_sound (env : GirEnv) (iface s : String) (syms : List String)
    (r : String) (he : env.atspiMethods iface = some syms)
    (hr : get_client_side_method env iface s = some r) :
    containsStr syms r = true := by
  unfold get_client_side_method at hr
  rw [he] at hr
  dsimp only at hr
  split at hr
  · next m hm =>
    injection hr with h
    subst h
    split at hm
    · next m' hov =>
      split_ifs at hm with hc
      · injection hm with h2
        subst h2
        exact hc
    · exact absurd hm (by simp)
  · next hm =>
    split_ifs at hr with h1 h2 h3 h4 h5
    · injection hr with h; subst h; exact h1
    · injection hr with h; subst h; exact h2
    · injection hr with h; subst h; exact h3
    · injection hr with h
      subst h
      have hlt := listIdx_lt _ _ h4
      rw [List.length_map] at hlt
      exact containsStr_listGetD _ _ hlt
    · rcases hfilter : syms.filter (fun x => pyIn "get_n_" x) with - | ⟨m, rest⟩
      · rw [hfilter] at hr
        exact absurd hr (by simp)
      · cases rest with
        | nil =>
          rw [hfilter] at hr
          simp only [] at hr
          injection hr with h
          subst h
          exact containsStr_of_filter_singleton _ _ _ hfilter
        | cons b bs =>
          rw [hfilter] at hr
          exact absurd hr (by simp)

/-- C3: the resolver tries its strategies in a fixed order with the
manual override table winning first, is total (every input yields a
resolved client symbol or None, and any resolved symbol is one of the
client-side symbols of the interface; an unknown interface yields
None), and in particular atk_value_set_value resolves to its override
entry atspi_value_set_current_value, atk_selection_ref_selection to
atspi_selection_get_selected_child, and atk_foo_get_bar_count, with a
unique client symbol containing get_n_, to atspi_foo_get_n_bar. -/
theorem atta_client_method_resolution :
    (∀ (env : GirEnv) (iface s : String) (syms : List String) (m : String),
        env.atspiMethods iface = some syms →
        lookupAssoc atkMappings s = some m →
        containsStr syms m = true →
        get_client_side_method env iface s = some m) ∧
    (∀ (env : GirEnv) (iface s : String) (syms : List String) (r : String),
        env.atspiMethods iface = some syms →
        get_client_side_method env iface s = some r →
        containsStr syms r = true) ∧
    (∀ (env : GirEnv) (iface s : String),
        env.atspiMethods iface = none →
        get_client_side_method env iface s = none) ∧
    get_client_side_method girEnvValue "Value" "atk_value_set_value" =
      some "atspi_value_set_current_value" ∧
    get_client_side_method girEnvSelection "Selection" "atk_selection_ref_selection" =
      some "atspi_selection_get_selected_child" ∧
    get_client_side_method girEnvFoo "Foo" "atk_foo_get_bar_count" =
      some "atspi_foo_get_n_bar" := by
  refine ⟨gcsm_override, gcsm_sound, ?_, by decide, by decide, by decide⟩
  intro env iface s he
  unfold get_client_side_method
  rw [he]

/-! ### Atta.get_bug_details (atta_base.py lines 637-683)

The external bug tracker is the environment.  The first `urlopen`
either raises (modelled None) or yields a page; the regex over its
title tag yields `titleMatch`; the rewritten REST/API URL is then
fetched and parsed, yielding `second` (None when that fetch or parse
raises), whose `state` is the joined upper-cased status/resolution and
whose `title` is the value under the title key (None when absent).
The bug cache maps a URI to the stored `details` value, which in the
Python can be `None`; a stored `None` fails the `is not None` test and
so behaves like a missing entry. -/

structure SecondInfo where
  state : String
  title : Option String
deriving Repr, DecidableEq

structure PageInfo where
  titleMatch : Option String
  second : Option SecondInfo
deriving Repr, DecidableEq

structure BugEnv where
  fetchPage : String → Option PageInfo

/-- Python string interpolation of an optional value (`None` renders
as the string None). -/
def optToPyStr : Option String → String
  | some s => s
  | none => "None"

/-- The details value computed by the body of `get_bug_details` after
a successful first fetch (lines 649-680): the title match, upgraded to
a bracketed state string when the second fetch succeeds with a
nonempty state. -/
def computeDetails (p : PageInfo) : Option String :=
  match p.second with
  | none => p.titleMatch
  | some info =>
    if info.state != "" then
      some ("[" ++ info.state ++ "] "
            ++ (match info.title with
                | some t => t
                | none => optToPyStr p.titleMatch))
    else p.titleMatch

/-- `Atta.get_bug_details`: returns the new cache, the returned
details value, and whether an external lookup was performed. -/
def get_bug_details (env : BugEnv) (bugs : List (String × Option String))
    (uri : String) : List (String × Option String) × Option String × Bool :=
  match lookupAssoc bugs uri with
  | some (some d) => (bugs, some d, false)
  | _ =>
    match env.fetchPage uri with
    | none => (bugs, some "", true)
    | some p =>
      let d := computeDetails p
      (dset bugs uri d, d, true)

/-! ### Theorems: the bug cache -/


/-- Looking up a key just stored by `dset` yields the stored value. -/
lemma lookupAssoc_dset_self {α : Type} (m : List (String × α)) (k : String) (v : α) :
    lookupAssoc (dset m k v) k = some v := by
  induction m with
  | nil => simp [dset, lookupAssoc]
  | cons p rest ih =>
    obtain ⟨k', v'⟩ := p
    by_cases hk : (k' == k) = true
    · simp [dset, hk, lookupAssoc]
    · simp [dset, hk, lookupAssoc, ih]

/-- C5 counterexample: with a tracker whose fetch always raises, two
successive calls for the same URI each perform an external lookup --
the first caches nothing, so the claimed at-most-once bound fails. -/
theorem atta_bug_cache_counterexample :
    (get_bug_details ⟨fun _ => none⟩ [] "https://bugs.example/1").2.2 = true ∧
    (get_bug_details ⟨fun _ => none⟩
      (get_bug_details ⟨fun _ => none⟩ [] "https://bugs.example/1").1
      "https://bugs.example/1").2.2 = true := by
  exact ⟨rfl, rfl⟩

/-- C5 as amended: a cache hit (a stored non-None detail string) is
returned with no external lookup; a call whose fetch succeeds stores
the computed details, and when those are a non-None string every later
call with the same URI returns them from the cache with no lookup; a
call whose initial fetch raises returns the empty string and caches
nothing. -/
theorem atta_bug_cache_lookup :
    (∀ (env : BugEnv) (bugs : List (String × Option String)) (uri d : String),
      lookupAssoc bugs uri = some (some d) →
      get_bug_details env bugs uri = (bugs, some d, false)) ∧
    (∀ (env : BugEnv) (bugs : List (String × Option String)) (uri : String)
        (p : PageInfo) (d : String),
      Option.getD (lookupAssoc bugs uri) none = none →
      env.fetchPage uri = some p →
      computeDetails p = some d →
      get_bug_details env bugs uri = (dset bugs uri (some d), some d, true) ∧
      get_bug_details env (dset bugs uri (some d)) uri =
        (dset bugs uri (some d), some d, false)) ∧
    (∀ (env : BugEnv) (bugs : List (String × Option String)) (uri : String),
      Option.getD (lookupAssoc bugs uri) none = none →
      env.fetchPage uri = none →
      get_bug_details env bugs uri = (bugs, some "", true)) := by
  refine ⟨?_, ?_, ?_⟩
  · intro env bugs uri d h
    unfold get_bug_details
    rw [h]
  · intro env bugs uri p d hmiss hfetch hdet
    constructor
    · unfold get_bug_details
      rcases hl : lookupAssoc bugs uri with - | - | d0
      · rw [hfetch]
        dsimp only
        rw [hdet]
      · rw [hfetch]
        dsimp only
        rw [hdet]
      · rw [hl] at hmiss
        simp at hmiss
    · unfold get_bug_details
      rw [lookupAssoc_dset_self]
  · intro env bugs uri hmiss hfetch
    unfold get_bug_details
    rcases hl : lookupAssoc bugs uri with - | - | d0
    · rw [hfetch]
    · rw [hfetch]
    · rw [hl] at hmiss
      simp at hmiss


/-! ### Listener scoping (atta_base.py lines 421-445, atk_atta.py lines 602-616)

The accessibility tree is given by the environment function `parent`
(None at a root).  `_find_ancestor` walks parents until a null parent;
the walk is written with explicit fuel, and the scoping theorem is
quantified over every fuel, so it covers every length the Python while
loop can run. -/

/-- The dictionary `_on_test_event` appends to the event history. -/
structure EventRecord where
  source : Nat
  type : String
  detail1 : Int
  detail2 : Int
  anyData : String
deriving DecidableEq, Repr

/-- The while loop of `Atta._find_ancestor` (lines 433-445), started
on `parent obj`: returns the first ancestor satisfying `pred`, walking
at most `fuel` parents before a null parent ends the walk. -/
def find_ancestor_walk (parent : Nat → Option Nat) (pred : Nat → Bool) :
    Nat → Option Nat → Option Nat
  | _, none => none
  | 0, some _ => none
  | fuel + 1, some p => if pred p then some p else find_ancestor_walk parent pred fuel (parent p)

/-- `Atta._in_current_document` (lines 421-431): false when no
current document is cached; otherwise true iff the object is the
current document or has it among its ancestors. -/
def in_current_document (parent : Nat → Option Nat) (fuel : Nat)
    (curDoc : Option Nat) (obj : Nat) : Bool :=
  match curDoc with
  | none => false
  | some doc =>
    obj == doc ||
      (find_ancestor_walk parent (fun x => x == doc) fuel (parent obj)).isSome

/-- `AtkAtta._on_test_event` (lines 602-616): appends the event to
the history only when its source lies in the current document. -/
def on_test_event (parent : Nat → Option Nat) (fuel : Nat) (curDoc : Option Nat)
    (history : List EventRecord) (ev : EventRecord) : List EventRecord :=
  if in_current_document parent fuel curDoc ev.source then history ++ [ev]
  else history

/-- The k-fold parent: `iter_parent parent (k+1) obj` is the k-th
proper ancestor of obj reached by repeated parent lookups. -/
def iter_parent (parent : Nat → Option Nat) : Nat → Nat → Option Nat
  | 0, obj => some obj
  | k + 1, obj =>
    match parent obj with
    | none => none
    | some p => iter_parent parent k p

/-- When no ancestor of obj equals doc, the ancestor walk finds
nothing, whatever its fuel. -/
lemma find_ancestor_walk_none (parent : Nat → Option Nat) (doc obj : Nat)
    (h : ∀ k : Nat, iter_parent parent (k + 1) obj ≠ some doc) (fuel : Nat) :
    find_ancestor_walk parent (fun x => x == doc) fuel (parent obj) = none := by
  induction fuel generalizing obj with
  | zero =>
    cases hp : parent obj <;> simp [find_ancestor_walk]
  | succ n ih =>
    cases hp : parent obj with
    | none => simp [find_ancestor_walk]
    | some p =>
      have hpd : (p == doc) = false := by
        have h0 := h 0
        simp [iter_parent, hp] at h0
        simpa using h0
      have hnext : ∀ k : Nat, iter_parent parent (k + 1) p ≠ some doc := by
        intro k
        have hk := h (k + 1)
        simpa [iter_parent, hp] using hk
      simp only [find_ancestor_walk, hpd, if_false, Bool.false_eq_true]
      exact ih p hnext

/-- C7: while listening, an inbound event whose source is not the
current document and does not have it among its ancestors (by repeated
parent lookups) is never appended to the event buffer; in particular
with no current document set nothing is ever appended. -/
theorem atta_listener_scoping :
    (∀ (parent : Nat → Option Nat) (fuel : Nat) (history : List EventRecord)
        (ev : EventRecord),
      on_test_event parent fuel none history ev = history) ∧
    (∀ (parent : Nat → Option Nat) (fuel : Nat) (doc : Nat)
        (history : List EventRecord) (ev : EventRecord),
      (ev.source == doc) = false →
      (∀ k : Nat, iter_parent parent (k + 1) ev.source ≠ some doc) →
      on_test_event parent fuel (some doc) history ev = history) := by
  constructor
  · intro parent fuel history ev
    simp [on_test_event, in_current_document]
  · intro parent fuel doc history ev hsrc hanc
    have hwalk := find_ancestor_walk_none parent doc ev.source hanc fuel
    simp [on_test_event, in_current_document, hsrc, hwalk]


/-! ### Retrying platform reads (atk_atta.py lines 227-253, 281-309)

A transient platform fault is an exception raised by one read attempt.
The environment gives the outcome of each attempt by attempt number: for a
property read, None means the getter raised and `some r` means it
returned r (itself an optional value); for a URI read, each attempt
reads the DocURL and then the URI document attribute, either of which
may raise (None) or return a string.  The Python recursion carries a
`retries` counter and gives up once `retries > self._retry_limit`;
here the remaining-attempts count `retryLimit + 1 - retries` is the
structural fuel, which is faithful because every recursive call
increments `retries` by one.  The sleeps between attempts and the
cache clearing have no observable effect in the model, and the
textAttributes post-processing of a successful value is orthogonal to
the retry discipline. -/

/-- `self._retry_limit` set by `AtkAtta.__init__`. -/
def atkRetryLimit : Nat := 2

/-- The retry loop of `AtkAtta.get_property_value`: try the getter,
and on an exception sleep and retry with `retries + 1`; once the
ceiling is exceeded, log and return None. -/
def get_property_attempts {α : Type} (env : Nat → Option (Option α)) :
    Nat → Nat → Option α
  | 0, _ => none
  | fuel + 1, k =>
    match env k with
    | some r => r
    | none => get_property_attempts env fuel (k + 1)

/-- The keys of `self._supported_properties` in `AtkAtta.__init__`. -/
def supported_property_names : List String :=
  ["accessible", "application", "childCount", "description", "name",
   "interfaces", "objectAttributes", "parent", "relations", "role",
   "states", "textAttributes"]

/-- `AtkAtta.get_property_value`: raises (as `Except.error`) for a
missing object unless the property is `accessible`, and for an
unsupported property name; otherwise runs the bounded retry loop. -/
def get_property_value {α : Type} (objPresent : Bool) (propertyName : String)
    (env : Nat → Option (Option α)) (retryLimit : Nat) : Except String (Option α) :=
  if !objPresent && propertyName != "accessible" then
    Except.error "Object not found"
  else if containsStr supported_property_names propertyName = false then
    Except.error ("Unsupported property: " ++ propertyName)
  else
    Except.ok (get_property_attempts env (retryLimit + 1) 0)

/-- The retry loop of `AtkAtta._get_uri`: each attempt reads the
DocURL and then the URI document attribute; an exception on either
read sleeps and retries the whole attempt, a nonempty value is
returned at once, and two empty values end the loop with `""`.  Once
the ceiling is exceeded, log and return `""`. -/
def get_uri_attempts (env : Nat → Option String × Option String) :
    Nat → Nat → String
  | 0, _ => ""
  | fuel + 1, k =>
    match (env k).1 with
    | none => get_uri_attempts env fuel (k + 1)
    | some d =>
      if d != "" then d
      else
        match (env k).2 with
        | none => get_uri_attempts env fuel (k + 1)
        | some u => if u != "" then u else ""

/-- `AtkAtta._get_uri`: `""` for a null document, else the bounded
retry loop. -/
def get_uri (docPresent : Bool) (env : Nat → Option String × Option String)
    (retryLimit : Nat) : String :=
  if !docPresent then "" else get_uri_attempts env (retryLimit + 1) 0

/-- The property retry loop reads only the attempts its fuel allows. -/
lemma get_property_attempts_congr {α : Type} (env envB : Nat → Option (Option α))
    (fuel start : Nat) (h : ∀ k, start ≤ k → k < start + fuel → env k = envB k) :
    get_property_attempts env fuel start = get_property_attempts envB fuel start := by
  induction fuel generalizing start with
  | zero => rfl
  | succ n ih =>
    have h0 : env start = envB start := h start (Nat.le_refl start) (by omega)
    unfold get_property_attempts
    rw [← h0]
    cases env start with
    | some r => rfl
    | none =>
      exact ih (start + 1) fun k hk1 hk2 => h k (by omega) (by omega)

/-- The URI retry loop reads only the attempts its fuel allows. -/
lemma get_uri_attempts_congr (env envB : Nat → Option String × Option String)
    (fuel start : Nat) (h : ∀ k, start ≤ k → k < start + fuel → env k = envB k) :
    get_uri_attempts env fuel start = get_uri_attempts envB fuel start := by
  induction fuel generalizing start with
  | zero => rfl
  | succ n ih =>
    have h0 : env start = envB start := h start (Nat.le_refl start) (by omega)
    have hrec := ih (start + 1) fun k hk1 hk2 => h k (by omega) (by omega)
    unfold get_uri_attempts
    rw [← h0]
    cases (env start).1 with
    | none => exact hrec
    | some d =>
      dsimp only
      split
      · rfl
      · cases (env start).2 with
        | none => exact hrec
        | some u => rfl

/-- C8: the retrying reads always terminate and never propagate a
transient fault: with the retry limit of 2, a property read whose
three attempts all raise yields `ok None` and a URI read whose three
attempts all raise yields `""`; both results depend only on attempts
0, 1 and 2, so at most two additional retries ever happen; and a valid
property read returns `ok` for every fault pattern. -/
theorem atta_bounded_retry_reads :
    (∀ (env : Nat → Option (Option Nat)),
      env 0 = none → env 1 = none → env 2 = none →
      get_property_value true "name" env atkRetryLimit = Except.ok none) ∧
    (∀ (objPresent : Bool) (propertyName : String)
        (env envB : Nat → Option (Option Nat)),
      (∀ k, k < 3 → env k = envB k) →
      get_property_value objPresent propertyName env atkRetryLimit =
        get_property_value objPresent propertyName envB atkRetryLimit) ∧
    (∀ (env : Nat → Option (Option Nat)), ∃ r,
      get_property_value true "name" env atkRetryLimit = Except.ok r) ∧
    (∀ (env : Nat → Option String × Option String),
      env 0 = (none, none) → env 1 = (none, none) → env 2 = (none, none) →
      get_uri true env atkRetryLimit = "") ∧
    (∀ (docPresent : Bool) (env envB : Nat → Option String × Option String),
      (∀ k, k < 3 → env k = envB k) →
      get_uri docPresent env atkRetryLimit = get_uri docPresent envB atkRetryLimit) := by
  refine ⟨?_, ?_, ?_, ?_, ?_⟩
  · intro env h0 h1 h2
    simp [get_property_value, atkRetryLimit, containsStr,
          get_property_attempts, h0, h1, h2]
  · intro objPresent propertyName env envB hagree
    unfold get_property_value
    split
    · rfl
    · split
      · rfl
      · rw [get_property_attempts_congr env envB (atkRetryLimit + 1) 0
            fun k hk1 hk2 => hagree k (by simpa [atkRetryLimit] using hk2)]
  · intro env
    exact ⟨get_property_attempts env (atkRetryLimit + 1) 0, rfl⟩
  · intro env h0 h1 h2
    simp [get_uri, atkRetryLimit, get_uri_attempts, h0, h1, h2]
  · intro docPresent env envB hagree
    unfold get_uri
    split
    · rfl
    · rw [get_uri_attempts_congr env envB (atkRetryLimit + 1) 0
          fun k hk1 hk2 => hagree k (by simpa [atkRetryLimit] using hk2)]


/-! ### Result aggregation (atta_base.py lines 263-307, 357-389)

`self._results` maps an aggregation key (a bug identifier or a result
status such as FAIL) to a per-file map from test file path to the list
of recorded assertion strings; both maps are insertion-ordered Python
dicts, modelled as association lists with in-place update. -/

/-- The aggregation step of `Atta._run_test` (lines 281-286): append
the assertion string under `results[key][testFile]`. -/
def record_result (results : List (String × List (String × List String)))
    (key testFile assertionString : String) :
    List (String × List (String × List String)) :=
  let statusResults := dget results key []
  let fileResults := dget statusResults testFile []
  dset results key (dset statusResults testFile (fileResults ++ [assertionString]))

/-- The counts printed by `output` in `Atta.log_results_summary`
(lines 364-376) for one key: the number of files, and the sum over
files of `len(set(assertions))` -- the number of distinct assertion
strings per file. -/
def summary_counts (results : List (String × List (String × List String)))
    (key : String) : Nat × Nat :=
  match lookupAssoc results key with
  | none => (0, 0)
  | some fileMap =>
    (fileMap.length, (fileMap.map fun p => p.2.dedup.length).sum)

/-- Reading a key just stored by `dset` yields the stored value. -/
lemma dget_dset_self {α : Type} (m : List (String × α)) (k : String) (v d : α) :
    dget (dset m k v) k d = v := by
  unfold dget
  rw [lookupAssoc_dset_self]

/-- Storing twice under one key keeps only the second value. -/
lemma dset_dset {α : Type} (m : List (String × α)) (k : String) (v w : α) :
    dset (dset m k v) k w = dset m k w := by
  induction m with
  | nil => simp [dset]
  | cons p rest ih =>
    obtain ⟨k', v'⟩ := p
    by_cases hk : (k' == k) = true
    · simp [dset, hk]
    · simp [dset, hk, ih]

/-- Storing different values under one key gives maps of equal size. -/
lemma length_dset_pair {α : Type} (m : List (String × α)) (k : String) (v w : α) :
    (dset m k v).length = (dset m k w).length := by
  induction m with
  | nil => rfl
  | cons p rest ih =>
    obtain ⟨k', v'⟩ := p
    by_cases hk : (k' == k) = true
    · simp [dset, hk]
    · simp [dset, hk, ih]

/-- The distinct-count sum is unchanged when the value stored under a
key is replaced by one with the same number of distinct elements. -/
lemma mapsum_dset (m : List (String × List String)) (k : String)
    (L1 L2 : List String) (h : L1.dedup.length = L2.dedup.length) :
    ((dset m k L1).map fun p => p.2.dedup.length).sum =
      ((dset m k L2).map fun p => p.2.dedup.length).sum := by
  induction m with
  | nil => simp [dset, h]
  | cons p rest ih =>
    obtain ⟨k', v'⟩ := p
    by_cases hk : (k' == k) = true
    · simp [dset, hk, h]
    · simp [dset, hk, ih]

/-- Appending an element already present does not change the number
of distinct elements. -/
lemma dedup_length_append_mem (l : List String) (s : String) (h : s ∈ l) :
    (l ++ [s]).dedup.length = l.dedup.length := by
  rw [← List.card_toFinset, ← List.card_toFinset, List.toFinset_append]
  have : [s].toFinset ⊆ l.toFinset := by
    simp [Finset.singleton_subset_iff, List.mem_toFinset, h]
  rw [Finset.union_eq_left.mpr this]

/-- C9: recording the same (test file, assertion string) pair twice
under the same result key contributes exactly one to the per-file
distinct-assertion count of the summary, which counts with set
semantics; a single record counts one assertion in one file. -/
theorem atta_summary_dedup :
    (∀ (results : List (String × List (String × List String)))
        (key f s : String),
      summary_counts (record_result (record_result results key f s) key f s) key =
        summary_counts (record_result results key f s) key) ∧
    summary_counts (record_result [] "FAIL" "test.html" "role is button") "FAIL" =
      (1, 1) := by
  constructor
  · intro results key f s
    unfold record_result
    dsimp only
    rw [dget_dset_self, dget_dset_self, dset_dset, dset_dset]
    unfold summary_counts
    rw [lookupAssoc_dset_self, lookupAssoc_dset_self]
    have hmem : s ∈ dget (dget results key []) f [] ++ [s] := by simp
    have hded := dedup_length_append_mem _ s hmem
    simp only [Prod.mk.injEq]
    constructor
    · exact length_dset_pair _ _ _ _
    · exact mapsum_dset _ _ _ _ hded
  · decide

end AttaSpec
